import Mathlib

/-!
Verification development for the zerogate-go API client core.

The Go code under scrutiny is `(c *Client) doRequest` and its satellite
definitions.  Pure fragments of the Go source are translated into Lean
functions; calls into the Go standard library (HMAC-SHA512, `encoding/json`
unmarshalling, `httputil` dumps, the network transport and URL parsing) are
modelled as explicit function parameters, so every theorem quantifies over
their behaviour.  Bytes are `Nat` lists, `http.Header` is an association
list with map semantics, machine integers are `Int`/`Nat`.
-/

namespace Zerogate

/-- UTF-8 encoding of one character, as Go produces with `[]byte(s)`. -/
def utf8Char (c : Char) : List Nat :=
  let n := c.toNat
  if n < 128 then [n]
  else if n < 2048 then [192 + n / 64, 128 + n % 64]
  else if n < 65536 then [224 + n / 4096, 128 + (n / 64) % 64, 128 + n % 64]
  else [240 + n / 262144, 128 + (n / 4096) % 64, 128 + (n / 64) % 64, 128 + n % 64]

/-- UTF-8 bytes of a string, the Go `[]byte(s)` conversion. -/
def utf8Bytes (s : String) : List Nat :=
  (s.data.map utf8Char).flatten

/-- Lowercase hexadecimal digit for a value below 16. -/
def hexDigit (n : Nat) : Char :=
  if n < 10 then Char.ofNat (48 + n) else Char.ofNat (87 + n)

/-- Two lowercase hexadecimal digits for one byte, as `encoding/hex` emits. -/
def hexByte (b : Nat) : String :=
  String.mk [hexDigit (b / 16 % 16), hexDigit (b % 16)]

/-- `hex.EncodeToString`: lowercase hexadecimal of a byte sequence. -/
def hexLower (bs : List Nat) : String :=
  bs.foldl (fun acc b => acc ++ hexByte b) ""

/-- Model of Go `http.Header` (`map[string][]string`) as an association
list holding each key at most once. -/
abbrev Headers : Type := List (String × List String)

/-- Map lookup: the value slice stored under key `k`, if any. -/
def hlookup (h : Headers) (k : String) : Option (List String) :=
  (List.find? (fun p => p.1 == k) h).map (fun p => p.2)

/-- `http.Header.Get`: first value under the key, or `""` when the key is
absent or its slice is empty. -/
def hget (h : Headers) (k : String) : String :=
  match hlookup h k with
  | some (v :: _) => v
  | _ => ""

/-- Go map assignment `h[k] = vs`: replace the binding of `k`, or add it. -/
def hsetEntry (h : Headers) (k : String) (vs : List String) : Headers :=
  (List.filter (fun p => p.1 != k) h) ++ [(k, vs)]

/-- `http.Header.Set`: bind the key to a one-element slice.  The Go call
canonicalises the key first; every key the client code passes to `Set` or
`Get` is already in canonical MIME form, so canonicalisation is the
identity here. -/
def hset (h : Headers) (k : String) (v : String) : Headers :=
  hsetEntry h k [v]

/-- The Go loop `for k, v := range src { acc[k] = v }`. -/
def copyInto (acc : Headers) (src : Headers) : Headers :=
  List.foldl (fun a p => hsetEntry a p.1 p.2) acc src

/-- Lines 196-203 of the request pipeline: a fresh header map receives the
client's default headers, then the call-supplied headers. -/
def mergeHeaders (defaults callHeaders : Headers) : Headers :=
  copyInto (copyInto ([] : List (String × List String)) defaults) callHeaders

/-- Each key appears at most once, the invariant of a Go map rendered as an
association list. -/
def KeysNodup (h : Headers) : Prop :=
  List.Pairwise (fun p q => p.1 ≠ q.1) h

/-- The server's error envelope (`ErrorResponse` in models.go), decoded
from `{"error_code": _, "error_message": _, "success": _}`. -/
structure ErrorResponse where
  errorCode : Int
  errorMessage : String
  success : Bool
  deriving Repr, DecidableEq

/-- The client's typed API error (`Error` in errors.go): the decoded error
envelope together with the HTTP status code. -/
structure Error where
  response : ErrorResponse
  statusCode : Nat
  deriving Repr, DecidableEq

/-- The Go method `func (e Error) Error() string`. -/
def Error.Error (e : Error) : String :=
  if e.response.errorMessage ≠ "" ∧ 0 < e.statusCode then
    e.response.errorMessage ++ " (" ++ toString e.statusCode ++ ")"
  else
    "unknown error (" ++ toString e.statusCode ++ ")"

/-- `APIResponse` from models.go: raw body bytes, status line, status code
and headers of a successful exchange. -/
structure APIResponse where
  body : List Nat
  status : String
  statusCode : Nat
  headers : Headers

/-- The `body interface{}` argument of `doRequest`, split along the type
switch of lines 153-165: `nil`, an `io.Reader` (whose full drained content
is the given bytes), raw `[]byte`, or any other value handed to
`json.Marshal` — the `Except` carries the marshalling outcome, since
`encoding/json` is standard-library code modelled abstractly. -/
inductive BodyArg where
  | absent : BodyArg
  | reader (bs : List Nat) : BodyArg
  | raw (bs : List Nat) : BodyArg
  | structured (marshalled : Except String (List Nat)) : BodyArg

/-- The distinct `error` returns of `doRequest`, one constructor per
`return nil, ...` site. -/
inductive ReqError where
  | marshalBody (msg : String) : ReqError
  | transport (msg : String) : ReqError
  | dumpFailed (msg : String) : ReqError
  | responseRead (msg : String) : ReqError
  | unmarshalResponse (msg : String) : ReqError
  | api (e : Error) : ReqError

/-- The configuration snapshot `doRequest` takes under the read lock
(lines 143-150).  The mutex itself, the `*http.Client` and the logger are
modelled separately (see the heap model below). -/
structure Client where
  apiKey : String
  apiSecret : String
  baseUrl : String
  debug : Bool
  userAgent : String
  headers : Headers

/-- The outgoing `*http.Request` as far as the claims observe it: method,
parsed URL path, raw query map, header map and transmitted body bytes.
`urlPath` stands for `req.URL.Path`, the path component `net/url` extracts
from `baseUrl + endpoint`; URL parsing is standard-library code and is
modelled as an input. -/
structure Request where
  method : String
  urlPath : String
  query : Headers
  headers : Headers
  body : Option (List Nat)

/-- The incoming `*http.Response`: status code, status line, headers, and
the outcome of `io.ReadAll(resp.Body)`. -/
structure HttpResponse where
  statusCode : Nat
  status : String
  headers : Headers
  body : Except String (List Nat)

/-- The two bytes of the literal `"[]byte("\x7b\x7d")"`, the default POST/PUT
body. -/
def jsonEmptyObject : List Nat := [123, 125]

/-- Lines 152-177: normalise the `body` argument into the byte sequence a
POST/PUT request will carry.  Returns `some bytes` for POST/PUT methods,
`none` for all others (no body is built, whatever the caller passed). -/
def materializeBody (method : String) (body : BodyArg) : Except ReqError (Option (List Nat)) :=
  if method = "POST" ∨ method = "PUT" then
    match body with
    | .absent => .ok (some jsonEmptyObject)
    | .reader bs => .ok (some bs)
    | .raw bs => .ok (some bs)
    | .structured (.ok js) => .ok (some js)
    | .structured (.error e) => .error (.marshalBody ("error marshalling body to JSON: " ++ e))
  else
    .ok none

/-- Lines 206-213: the byte sequence fed to the HMAC — the canonical
message `method + urlPath + fmt.Sprint(now)` with the materialised body
bytes appended exactly when the method is POST or PUT. -/
def hmacInput (method urlPath : String) (now : Int) (bodyBytes : List Nat) : List Nat :=
  utf8Bytes (method ++ urlPath ++ toString now) ++
    (if method = "POST" ∨ method = "PUT" then bodyBytes else [])

/-- Line 216: the exact `Authorization` header value,
`fmt.Sprintf("APIKey=%s, Signature=%s, Nonce=%d", apiKey, signature, now)`. -/
def authValue (apiKey signature : String) (now : Int) : String :=
  "APIKey=" ++ apiKey ++ ", Signature=" ++ signature ++ ", Nonce=" ++ toString now

/-- Lines 196-222 of `doRequest`: header merge, HMAC-SHA512 signing and
the `Authorization` / `User-Agent` / `Content-Type` header writes.
`hm key msg` models `crypto/hmac` with SHA-512:
`h := hmac.New(sha512.New, key); h.Write(msg); h.Sum(nil)` — the
successive `h.Write` calls concatenate, so the single `msg` argument is
the concatenation of everything written. -/
def signedHeadersBase (hm : List Nat → List Nat → List Nat) (c : Client)
    (method urlPath : String) (headers : Headers) (now : Int)
    (mb : Option (List Nat)) : Headers :=
  let combined := mergeHeaders c.headers headers
  let signature := hexLower (hm (utf8Bytes c.apiSecret) (hmacInput method urlPath now (mb.getD [])))
  let h1 := hset combined "Authorization" (authValue c.apiKey signature now)
  if c.userAgent ≠ "" then hset h1 "User-Agent" c.userAgent else h1

/-- Lines 220-222: default the `Content-Type` to `application/json` when
`req.Header.Get("Content-Type")` is empty. -/
def signedHeaders (hm : List Nat → List Nat → List Nat) (c : Client)
    (method urlPath : String) (headers : Headers) (now : Int)
    (mb : Option (List Nat)) : Headers :=
  let h2 := signedHeadersBase hm c method urlPath headers now mb
  if hget h2 "Content-Type" = "" then hset h2 "Content-Type" "application/json" else h2

/-- The request handed to the transport: materialised body plus the header
map produced by `signedHeaders`. -/
def buildSignedRequest (hm : List Nat → List Nat → List Nat) (c : Client)
    (method urlPath : String) (query : Headers) (body : BodyArg)
    (headers : Headers) (now : Int) : Except ReqError Request :=
  match materializeBody method body with
  | .error e => .error e
  | .ok mb =>
    .ok { method := method, urlPath := urlPath, query := query,
          headers := signedHeaders hm c method urlPath headers now mb, body := mb }

/-- The fixed redaction marker `"[**************]"` (a bracket, fourteen
asterisks, a bracket), given as bytes. -/
def redactionMarker : List Nat := 91 :: List.replicate 14 42 ++ [93]

/-- Boolean prefix test on byte lists. -/
def isPfxB : List Nat → List Nat → Bool
  | [], _ => true
  | _ :: _, [] => false
  | a :: as, b :: bs => a == b && isPfxB as bs

/-- Replace every leftmost non-overlapping occurrence of `pat` in `text`
by `repl`; fuel-indexed, with fuel at least `text.length`. -/
def replHelper (pat repl : List Nat) : Nat → List Nat → List Nat
  | 0, text => text
  | fuel + 1, text =>
    if pat ≠ [] ∧ isPfxB pat text then
      repl ++ replHelper pat repl fuel (text.drop pat.length)
    else
      match text with
      | [] => []
      | t :: ts => t :: replHelper pat repl fuel ts

/-- `regexp.MustCompile(key).ReplaceAll(text, marker)` for a key without
regex metacharacters: literal global replacement. -/
def replaceAll (pat repl text : List Nat) : List Nat :=
  replHelper pat repl text.length text

/-- Lines 230-236: substitute every occurrence of the API key and then of
the API secret (each only when non-empty) by the redaction marker. -/
def redactSensitive (apiKey apiSecret : String) (dump : List Nat) : List Nat :=
  let d1 := if apiKey ≠ "" then replaceAll (utf8Bytes apiKey) redactionMarker dump else dump
  if apiSecret ≠ "" then replaceAll (utf8Bytes apiSecret) redactionMarker d1 else d1

/-- Lines 257-275: classify a completed exchange.  `unmarshal` models
`json.Unmarshal(respBody, &ErrorResponse{})`. -/
def classifyResponse (unmarshal : List Nat → Except String ErrorResponse)
    (respBody : List Nat) (resp : HttpResponse) : Except ReqError APIResponse :=
  if 400 ≤ resp.statusCode then
    match unmarshal respBody with
    | .error e => .error (.unmarshalResponse ("failed to unmarshal response body: " ++ e))
    | .ok r => .error (.api { response := r, statusCode := resp.statusCode })
  else
    .ok { body := respBody, status := resp.status, statusCode := resp.statusCode,
          headers := resp.headers }

/-- The tail of `doRequest` after the request dump: perform the call,
optionally dump the response (note: without any redaction), read the body
and classify.  The second component collects the `log.Printf` emissions. -/
def performRequest (unmarshal : List Nat → Except String ErrorResponse)
    (dumpResp : HttpResponse → Except String (List Nat))
    (send : Request → Except String HttpResponse)
    (debug : Bool) (req : Request) (logs : List (List Nat)) :
    Except ReqError APIResponse × List (List Nat) :=
  match send req with
  | .error e => (.error (.transport ("ZeroGate request failed: " ++ e)), logs)
  | .ok resp =>
    let step := fun (logs2 : List (List Nat)) =>
      match resp.body with
      | .error e => ((.error (.responseRead ("response read failed: " ++ e)) :
          Except ReqError APIResponse), logs2)
      | .ok respBody => (classifyResponse unmarshal respBody resp, logs2)
    if debug then
      match dumpResp resp with
      | .error e => (.error (.dumpFailed e), logs)
      | .ok d => step (logs ++ [d])
    else
      step logs

/-- `(c *Client) doRequest`, lines 138-276, under the stated abstractions:
`hm` is HMAC-SHA512, `unmarshal` is `json.Unmarshal` into `ErrorResponse`,
`dumpReq`/`dumpResp` are `httputil.DumpRequestOut`/`DumpResponse`, `send`
is the (copied) `http.Client`'s `Do`, `now` is the single
`time.Now().Unix()` taken during the call, and `urlPath` is the parsed
`req.URL.Path`.  The second component is the ordered list of byte strings
handed to `log.Printf`. -/
def doRequest (hm : List Nat → List Nat → List Nat)
    (unmarshal : List Nat → Except String ErrorResponse)
    (dumpReq : Request → Except String (List Nat))
    (dumpResp : HttpResponse → Except String (List Nat))
    (send : Request → Except String HttpResponse)
    (c : Client) (method urlPath : String) (query : Headers)
    (body : BodyArg) (headers : Headers) (now : Int) :
    Except ReqError APIResponse × List (List Nat) :=
  match buildSignedRequest hm c method urlPath query body headers now with
  | .error e => (.error e, [])
  | .ok req =>
    if c.debug then
      match dumpReq req with
      | .error e => (.error (.dumpFailed e), [])
      | .ok d =>
        performRequest unmarshal dumpResp send c.debug req
          [redactSensitive c.apiKey c.apiSecret d]
    else
      performRequest unmarshal dumpResp send c.debug req []

/-- Representative configuration of a Go `http.Client` value (`Timeout`
and an opaque transport identity); `clientCopy := *httpClient` copies this
record. -/
structure HttpClientVal where
  timeout : Int
  transportId : Nat
  deriving Repr, DecidableEq

/-- Explicit store for the two kinds of mutable objects `doRequest`
touches through pointers: header maps and `http.Client` records.  A
location is an index; allocation appends. -/
structure Heap where
  hdrs : List Headers
  clis : List HttpClientVal

/-- `make(http.Header)` and friends: allocate a fresh header-map cell. -/
def allocHdr (H : Heap) (h : Headers) : Heap × Nat :=
  ({ H with hdrs := H.hdrs ++ [h] }, H.hdrs.length)

/-- Dereference a header-map location. -/
def readHdr (H : Heap) (l : Nat) : Headers :=
  H.hdrs.getD l ([] : List (String × List String))

/-- Store through a header-map location. -/
def writeHdr (H : Heap) (l : Nat) (h : Headers) : Heap :=
  { H with hdrs := H.hdrs.set l h }

/-- Allocate a fresh `http.Client` cell. -/
def allocCli (H : Heap) (v : HttpClientVal) : Heap × Nat :=
  ({ H with clis := H.clis ++ [v] }, H.clis.length)

/-- Dereference an `http.Client` location. -/
def readCli (H : Heap) (l : Nat) : HttpClientVal :=
  H.clis.getD l { timeout := 0, transportId := 0 }

/-- `h.Set(k, v)` on the header map stored at `l`. -/
def setHdrAt (H : Heap) (l : Nat) (k v : String) : Heap :=
  writeHdr H l (hset (readHdr H l) k v)

/-- The Go loop `for k, v := range src { m[k] = v }` writing through the
location `l`, one map assignment per entry. -/
def copyLoop (H : Heap) (l : Nat) (src : Headers) : Heap :=
  List.foldl (fun Ha p => writeHdr Ha l (hsetEntry (readHdr Ha l) p.1 p.2)) H src

/-- The `*Client` record with its pointer-valued fields as heap
locations: `headersLoc` is where the default header map lives,
`httpClientLoc` where the configured `*http.Client` points. -/
structure ClientObj where
  apiKey : String
  apiSecret : String
  baseUrl : String
  debug : Bool
  userAgent : String
  headersLoc : Nat
  httpClientLoc : Nat
  deriving Repr, DecidableEq

/-- `(c *Client) getClient` (lines 130-136): read the configured client
under the read lock, allocate a copy, return its location. -/
def getClient (H : Heap) (co : ClientObj) : Heap × Nat :=
  allocCli H (readCli H co.httpClientLoc)

/-- Lines 196-222 at heap level: allocate the fresh `combinedHeaders` map,
copy the default headers into it entry by entry, overlay the call-supplied
headers, then perform the `Authorization`, `User-Agent` and `Content-Type`
writes — every store going through the freshly allocated location, which
is returned with the heap. -/
def buildHeadersHeap (H : Heap) (apiHeaders callHeaders : Headers)
    (apiKey signature userAgent : String) (now : Int) : Heap × Nat :=
  let Hl := allocHdr H ([] : List (String × List String))
  let loc := Hl.2
  let H2 := copyLoop Hl.1 loc apiHeaders
  let H3 := copyLoop H2 loc callHeaders
  let H4 := setHdrAt H3 loc "Authorization" (authValue apiKey signature now)
  let H5 := if userAgent ≠ "" then setHdrAt H4 loc "User-Agent" userAgent else H4
  let H6 := if hget (readHdr H5 loc) "Content-Type" = "" then
      setHdrAt H5 loc "Content-Type" "application/json" else H5
  (H6, loc)

/-- Lines 239-276 at heap level: `client := c.getClient()` allocates the
copy of the configured `http.Client`, then the exchange runs; the heap is
not touched again. -/
def finishRequestHeap (unmarshal : List Nat → Except String ErrorResponse)
    (dumpResp : HttpResponse → Except String (List Nat))
    (send : Request → Except String HttpResponse)
    (H : Heap) (co : ClientObj) (req : Request) (debug : Bool) :
    Heap × ClientObj × Except ReqError APIResponse :=
  let Hc := getClient H co
  let H7 := Hc.1
  match send req with
  | .error e => (H7, co, (.error (.transport ("ZeroGate request failed: " ++ e)) :
      Except ReqError APIResponse))
  | .ok resp =>
    let step := fun (_ : Unit) =>
      match resp.body with
      | .error e => (H7, co, (.error (.responseRead ("response read failed: " ++ e)) :
          Except ReqError APIResponse))
      | .ok respBody => (H7, co, classifyResponse unmarshal respBody resp)
    if debug then
      match dumpResp resp with
      | .error e => (H7, co, .error (.dumpFailed e))
      | .ok _ => step ()
    else
      step ()

/-- Heap-level rendering of `doRequest`: identical control flow, with the
header-map construction of lines 196-222 performed through explicit
allocation and per-statement writes, and `getClient`'s copy allocated on
the heap.  Debug log contents are covered by `doRequest` above; here the
dumps only keep their failure control flow.  Returns the final heap, the
`*Client` record after the call, and the result. -/
def doRequestHeap (hm : List Nat → List Nat → List Nat)
    (unmarshal : List Nat → Except String ErrorResponse)
    (dumpReq : Request → Except String (List Nat))
    (dumpResp : HttpResponse → Except String (List Nat))
    (send : Request → Except String HttpResponse)
    (H : Heap) (co : ClientObj) (method urlPath : String) (query : Headers)
    (body : BodyArg) (callHeaders : Headers) (now : Int) :
    Heap × ClientObj × Except ReqError APIResponse :=
  let apiKey := co.apiKey
  let apiSecret := co.apiSecret
  let debug := co.debug
  let userAgent := co.userAgent
  let apiHeaders := readHdr H co.headersLoc
  match materializeBody method body with
  | .error e => (H, co, .error e)
  | .ok mb =>
    let signature := hexLower (hm (utf8Bytes apiSecret) (hmacInput method urlPath now (mb.getD [])))
    let Hloc := buildHeadersHeap H apiHeaders callHeaders apiKey signature userAgent now
    let req : Request := { method := method, urlPath := urlPath, query := query,
                           headers := readHdr Hloc.1 Hloc.2, body := mb }
    if debug then
      match dumpReq req with
      | .error e => (Hloc.1, co, .error (.dumpFailed e))
      | .ok _ => finishRequestHeap unmarshal dumpResp send Hloc.1 co req debug
    else
      finishRequestHeap unmarshal dumpResp send Hloc.1 co req debug

/-- `H2` preserves every object that already exists in `H`: the frame
property one step of heap evolution must keep. -/
def HeapExtends (H H2 : Heap) : Prop :=
  H.hdrs.length ≤ H2.hdrs.length ∧ H.clis.length ≤ H2.clis.length ∧
  (∀ l, l < H.hdrs.length → readHdr H2 l = readHdr H l) ∧
  (∀ l, l < H.clis.length → readCli H2 l = readCli H l)

/-! Concrete inputs used by the closed witness and counterexample
theorems.  The abstract standard-library parameters (`hm`, `unmarshal`,
the dumps, the transport) are instantiated with small executable
functions so that every evaluated fact reduces in the kernel. -/

/-- A stand-in for the HMAC-SHA512 parameter in closed evaluations. -/
def wHm (key msg : List Nat) : List Nat := (key ++ msg).take 4

/-- A stand-in for `json.Unmarshal` into `ErrorResponse`: fails on the
fixed non-JSON byte string, succeeds otherwise with a fixed envelope. -/
def wUnmarshal (bs : List Nat) : Except String ErrorResponse :=
  if bs = utf8Bytes "notjson" then .error "invalid character"
  else .ok { errorCode := 404, errorMessage := "not found", success := false }

/-- A stand-in request dump: renders the method bytes. -/
def wDumpReq (r : Request) : Except String (List Nat) := .ok (utf8Bytes r.method)

/-- A stand-in response dump that, like `httputil.DumpResponse` with
`body = true`, includes the response body bytes in the dump. -/
def wDumpResp (r : HttpResponse) : Except String (List Nat) :=
  match r.body with
  | .ok bs => .ok bs
  | .error e => .error e

/-- A transport returning a fixed response. -/
def wSend (code : Nat) (bodyBytes : List Nat) : Request → Except String HttpResponse :=
  fun _ => .ok { statusCode := code, status := toString code, headers := [], body := .ok bodyBytes }

/-- A concrete client snapshot. -/
def wClient : Client :=
  { apiKey := "key1", apiSecret := "sec1", baseUrl := "http://api", debug := false,
    userAgent := "zerogate-go", headers := [("X-Def", ["d"])] }

/-- The concrete client with debug tracing on. -/
def wClientDebug : Client := { wClient with debug := true }

/-- Fallback request value for `okOrD`. -/
def dfltRequest : Request :=
  { method := "", urlPath := "", query := [], headers := [], body := none }

/-- Extract the request from a successful build. -/
def okOrD (x : Except ReqError Request) : Request :=
  match x with
  | .ok r => r
  | .error _ => dfltRequest

/-- Concrete built request: POST with raw body bytes `[65, 66]`. -/
def wreqPost : Request :=
  okOrD (buildSignedRequest wHm wClient "POST" "/t" [] (.raw [65, 66]) [] 7)

/-- Concrete built request: GET with a (discarded) raw body. -/
def wreqGet : Request :=
  okOrD (buildSignedRequest wHm wClient "GET" "/t" [] (.raw [65, 66]) [] 7)

/-- Concrete built request: PUT with an absent body. -/
def wreqPutAbsent : Request :=
  okOrD (buildSignedRequest wHm wClient "PUT" "/t" [] .absent [] 7)

/-- Concrete built request: DELETE. -/
def wreqDelete : Request :=
  okOrD (buildSignedRequest wHm wClient "DELETE" "/t" [] .absent [] 9)

/-- Call-supplied headers carrying a caller User-Agent and Content-Type. -/
def wCallHeaders : Headers := [("User-Agent", ["CallerUA"]), ("Content-Type", ["text/plain"])]

/-- Concrete built request for the header-merge claim. -/
def wreqHdrs : Request :=
  okOrD (buildSignedRequest wHm wClient "GET" "/h" [] .absent wCallHeaders 3)

/-- A transport whose 200 response body contains the API key literal, as
a server echoing request material would produce. -/
def cexSendEcho : Request → Except String HttpResponse :=
  fun _ => .ok { statusCode := 200, status := "200 OK", headers := [],
                 body := .ok (utf8Bytes "key1") }

/-- Concrete built request for the debug-redaction claim. -/
def wreqDebug : Request :=
  okOrD (buildSignedRequest wHm wClientDebug "GET" "/g" [] .absent [] 3)

/-- A concrete heap: one default header map and one `http.Client`. -/
def wHeap : Heap :=
  { hdrs := [[("X-Def", ["d"])]], clis := [{ timeout := 5, transportId := 1 }] }

/-- A concrete `*Client` record whose pointers target `wHeap`. -/
def wClientObj : ClientObj :=
  { apiKey := "key1", apiSecret := "sec1", baseUrl := "http://api", debug := false,
    userAgent := "ua", headersLoc := 0, httpClientLoc := 0 }

/-! Map lemmas for the `http.Header` model. -/

theorem hlookup_hsetEntry_self (h : Headers) (k : String) (vs : List String) :
    hlookup (hsetEntry h k vs) k = some vs := by
  induction h with
  | nil => simp [hlookup, hsetEntry]
  | cons p t ih =>
    by_cases hp : p.1 = k
    · simpa [hlookup, hsetEntry, List.filter_cons, hp] using ih
    · have h1 : (p.1 == k) = false := by simp [hp]
      simp only [hsetEntry, List.filter_cons] at ih ⊢
      simp only [bne, h1, Bool.not_false, if_pos]
      simp only [hlookup, List.find?, h1] at ih ⊢
      simpa using ih

theorem hlookup_hsetEntry_ne (h : Headers) (k k2 : String) (vs : List String)
    (hne : k2 ≠ k) : hlookup (hsetEntry h k vs) k2 = hlookup h k2 := by
  induction h with
  | nil => simp [hlookup, hsetEntry, List.find?, show (k == k2) = false by simp [Ne.symm hne]]
  | cons p t ih =>
    by_cases hp : p.1 = k
    · have hpk2 : (p.1 == k2) = false := by simp [hp, Ne.symm hne]
      simp only [hsetEntry, List.filter_cons] at ih ⊢
      simp only [bne, show (p.1 == k) = true by simp [hp], Bool.not_true, if_neg,
        Bool.false_eq_true, not_false_iff]
      simp only [hlookup, List.find?, hpk2] at ih ⊢
      simpa using ih
    · have h1 : (p.1 == k) = false := by simp [hp]
      simp only [hsetEntry, List.filter_cons] at ih ⊢
      simp only [bne, h1, Bool.not_false, if_pos]
      by_cases hpk2 : p.1 = k2
      · simp [hlookup, List.find?, hpk2]
      · have h2 : (p.1 == k2) = false := by simp [hpk2]
        simp only [hlookup, List.find?, h2] at ih ⊢
        simpa using ih

theorem hlookup_copyInto_not_mem : ∀ (src acc : Headers) (k : String),
    (∀ p ∈ src, p.1 ≠ k) → hlookup (copyInto acc src) k = hlookup acc k
  | [], _, _, _ => rfl
  | q :: t, acc, k, hk => by
    have h1 : hlookup (copyInto (hsetEntry acc q.1 q.2) t) k
        = hlookup (hsetEntry acc q.1 q.2) k :=
      hlookup_copyInto_not_mem t _ k (fun p hp => hk p (List.mem_cons_of_mem _ hp))
    have h2 := hlookup_hsetEntry_ne acc q.1 k q.2 (Ne.symm (hk q (List.mem_cons_self _ _)))
    exact h1.trans h2

theorem hlookup_copyInto (src : Headers) (hnd : KeysNodup src) (acc : Headers) (k : String) :
    hlookup (copyInto acc src) k =
      match hlookup src k with
      | some vs => some vs
      | none => hlookup acc k := by
  induction src generalizing acc with
  | nil => rfl
  | cons q t ih =>
    have hnd2 : KeysNodup t := (List.pairwise_cons.mp hnd).2
    have hq : ∀ p ∈ t, q.1 ≠ p.1 := (List.pairwise_cons.mp hnd).1
    have hstep : copyInto acc (q :: t) = copyInto (hsetEntry acc q.1 q.2) t := rfl
    by_cases hk : q.1 = k
    · have hmem : ∀ p ∈ t, p.1 ≠ k := fun p hp he => (hq p hp) (hk.trans he.symm)
      rw [hstep, hlookup_copyInto_not_mem t _ k hmem, hk, hlookup_hsetEntry_self]
      simp [hlookup, List.find?, show (q.1 == k) = true by simp [hk]]
    · rw [hstep, ih hnd2]
      have hlk : hlookup (q :: t) k = hlookup t k := by
        simp [hlookup, List.find?, show (q.1 == k) = false by simp [hk]]
      rw [hlk]
      cases hv : hlookup t k
      · simp only []
        exact hlookup_hsetEntry_ne acc q.1 k q.2 (Ne.symm hk)
      · rfl

theorem hlookup_mergeHeaders (d c : Headers) (hd : KeysNodup d) (hc : KeysNodup c)
    (k : String) :
    hlookup (mergeHeaders d c) k =
      match hlookup c k with
      | some vs => some vs
      | none => hlookup d k := by
  unfold mergeHeaders
  rw [hlookup_copyInto c hc _ k]
  cases hlookup c k
  · simp only []
    rw [hlookup_copyInto d hd _ k]
    cases hlookup d k <;> rfl
  · rfl

theorem hlookup_hset_self (h : Headers) (k v : String) :
    hlookup (hset h k v) k = some [v] :=
  hlookup_hsetEntry_self h k [v]

theorem hlookup_hset_ne (h : Headers) (k k2 v : String) (hne : k2 ≠ k) :
    hlookup (hset h k v) k2 = hlookup h k2 :=
  hlookup_hsetEntry_ne h k k2 [v] hne

theorem hget_hset_self (h : Headers) (k v : String) : hget (hset h k v) k = v := by
  unfold hget
  rw [hlookup_hset_self]

theorem hget_hset_ne (h : Headers) (k k2 v : String) (hne : k2 ≠ k) :
    hget (hset h k v) k2 = hget h k2 := by
  unfold hget
  rw [hlookup_hset_ne _ _ _ _ hne]

/-! Lemmas about the header map every signed request carries. -/

theorem hget_signedHeadersBase_auth (hm : List Nat → List Nat → List Nat) (c : Client)
    (method urlPath : String) (headers : Headers) (now : Int) (mb : Option (List Nat)) :
    hget (signedHeadersBase hm c method urlPath headers now mb) "Authorization" =
      authValue c.apiKey
        (hexLower (hm (utf8Bytes c.apiSecret) (hmacInput method urlPath now (mb.getD []))))
        now := by
  simp only [signedHeadersBase]
  split_ifs <;>
    first
      | rw [hget_hset_ne _ _ _ _ (by decide), hget_hset_self]
      | rw [hget_hset_self]

theorem hget_signedHeadersBase_ct (hm : List Nat → List Nat → List Nat) (c : Client)
    (method urlPath : String) (headers : Headers) (now : Int) (mb : Option (List Nat)) :
    hget (signedHeadersBase hm c method urlPath headers now mb) "Content-Type" =
      hget (mergeHeaders c.headers headers) "Content-Type" := by
  simp only [signedHeadersBase]
  split_ifs <;>
    first
      | rw [hget_hset_ne _ _ _ _ (by decide), hget_hset_ne _ _ _ _ (by decide)]
      | rw [hget_hset_ne _ _ _ _ (by decide)]

theorem hlookup_signedHeadersBase_ct (hm : List Nat → List Nat → List Nat) (c : Client)
    (method urlPath : String) (headers : Headers) (now : Int) (mb : Option (List Nat)) :
    hlookup (signedHeadersBase hm c method urlPath headers now mb) "Content-Type" =
      hlookup (mergeHeaders c.headers headers) "Content-Type" := by
  simp only [signedHeadersBase]
  split_ifs <;>
    first
      | rw [hlookup_hset_ne _ _ _ _ (by decide), hlookup_hset_ne _ _ _ _ (by decide)]
      | rw [hlookup_hset_ne _ _ _ _ (by decide)]

theorem hget_signedHeadersBase_ua (hm : List Nat → List Nat → List Nat) (c : Client)
    (method urlPath : String) (headers : Headers) (now : Int) (mb : Option (List Nat))
    (h : c.userAgent ≠ "") :
    hget (signedHeadersBase hm c method urlPath headers now mb) "User-Agent" = c.userAgent := by
  simp only [signedHeadersBase, if_pos h]
  rw [hget_hset_self]

theorem hlookup_signedHeadersBase_ua_not_configured (hm : List Nat → List Nat → List Nat)
    (c : Client) (method urlPath : String) (headers : Headers) (now : Int)
    (mb : Option (List Nat)) (h : c.userAgent = "") :
    hlookup (signedHeadersBase hm c method urlPath headers now mb) "User-Agent" =
      hlookup (mergeHeaders c.headers headers) "User-Agent" := by
  simp only [signedHeadersBase, if_neg (show ¬c.userAgent ≠ "" by simp [h])]
  rw [hlookup_hset_ne _ _ _ _ (by decide)]

theorem hlookup_signedHeadersBase_other (hm : List Nat → List Nat → List Nat) (c : Client)
    (method urlPath : String) (headers : Headers) (now : Int) (mb : Option (List Nat))
    (k : String) (hka : k ≠ "Authorization") (hku : k ≠ "User-Agent") :
    hlookup (signedHeadersBase hm c method urlPath headers now mb) k =
      hlookup (mergeHeaders c.headers headers) k := by
  simp only [signedHeadersBase]
  split_ifs <;>
    first
      | rw [hlookup_hset_ne _ _ _ _ hku, hlookup_hset_ne _ _ _ _ hka]
      | rw [hlookup_hset_ne _ _ _ _ hka]

theorem hget_signedHeaders_auth (hm : List Nat → List Nat → List Nat) (c : Client)
    (method urlPath : String) (headers : Headers) (now : Int) (mb : Option (List Nat)) :
    hget (signedHeaders hm c method urlPath headers now mb) "Authorization" =
      authValue c.apiKey
        (hexLower (hm (utf8Bytes c.apiSecret) (hmacInput method urlPath now (mb.getD []))))
        now := by
  simp only [signedHeaders]
  split_ifs
  · rw [hget_hset_ne _ _ _ _ (by decide), hget_signedHeadersBase_auth]
  · rw [hget_signedHeadersBase_auth]

theorem hget_signedHeaders_ua (hm : List Nat → List Nat → List Nat) (c : Client)
    (method urlPath : String) (headers : Headers) (now : Int) (mb : Option (List Nat))
    (h : c.userAgent ≠ "") :
    hget (signedHeaders hm c method urlPath headers now mb) "User-Agent" = c.userAgent := by
  simp only [signedHeaders]
  split_ifs
  · rw [hget_hset_ne _ _ _ _ (by decide), hget_signedHeadersBase_ua _ _ _ _ _ _ _ h]
  · rw [hget_signedHeadersBase_ua _ _ _ _ _ _ _ h]

theorem hlookup_signedHeaders_ua_not_configured (hm : List Nat → List Nat → List Nat)
    (c : Client) (method urlPath : String) (headers : Headers) (now : Int)
    (mb : Option (List Nat)) (h : c.userAgent = "") :
    hlookup (signedHeaders hm c method urlPath headers now mb) "User-Agent" =
      hlookup (mergeHeaders c.headers headers) "User-Agent" := by
  simp only [signedHeaders]
  split_ifs
  · rw [hlookup_hset_ne _ _ _ _ (by decide),
      hlookup_signedHeadersBase_ua_not_configured _ _ _ _ _ _ _ h]
  · rw [hlookup_signedHeadersBase_ua_not_configured _ _ _ _ _ _ _ h]

theorem hget_signedHeaders_ct_absent (hm : List Nat → List Nat → List Nat) (c : Client)
    (method urlPath : String) (headers : Headers) (now : Int) (mb : Option (List Nat))
    (h : hget (mergeHeaders c.headers headers) "Content-Type" = "") :
    hget (signedHeaders hm c method urlPath headers now mb) "Content-Type" =
      "application/json" := by
  simp only [signedHeaders]
  rw [if_pos (by rw [hget_signedHeadersBase_ct]; exact h), hget_hset_self]

theorem hlookup_signedHeaders_ct_present (hm : List Nat → List Nat → List Nat) (c : Client)
    (method urlPath : String) (headers : Headers) (now : Int) (mb : Option (List Nat))
    (h : hget (mergeHeaders c.headers headers) "Content-Type" ≠ "") :
    hlookup (signedHeaders hm c method urlPath headers now mb) "Content-Type" =
      hlookup (mergeHeaders c.headers headers) "Content-Type" := by
  simp only [signedHeaders]
  rw [if_neg (by rw [hget_signedHeadersBase_ct]; exact h), hlookup_signedHeadersBase_ct]

theorem hlookup_signedHeaders_other (hm : List Nat → List Nat → List Nat) (c : Client)
    (method urlPath : String) (headers : Headers) (now : Int) (mb : Option (List Nat))
    (k : String) (hka : k ≠ "Authorization") (hku : k ≠ "User-Agent")
    (hkc : k ≠ "Content-Type") :
    hlookup (signedHeaders hm c method urlPath headers now mb) k =
      hlookup (mergeHeaders c.headers headers) k := by
  simp only [signedHeaders]
  split_ifs
  · rw [hlookup_hset_ne _ _ _ _ hkc, hlookup_signedHeadersBase_other _ _ _ _ _ _ _ _ hka hku]
  · rw [hlookup_signedHeadersBase_other _ _ _ _ _ _ _ _ hka hku]

/-- The shape of a successful build: the request record in terms of its
parts. -/
theorem buildSignedRequest_ok (hm : List Nat → List Nat → List Nat) (c : Client)
    (method urlPath : String) (query : Headers) (body : BodyArg) (headers : Headers)
    (now : Int) (mb : Option (List Nat))
    (hmb : materializeBody method body = .ok mb) :
    buildSignedRequest hm c method urlPath query body headers now =
      .ok { method := method, urlPath := urlPath, query := query,
            headers := signedHeaders hm c method urlPath headers now mb, body := mb } := by
  unfold buildSignedRequest
  rw [hmb]

/-- C1: the `Signature` field placed in the `Authorization` header equals
the lowercase hexadecimal encoding of HMAC-SHA512 keyed by the API secret
over `method ++ urlPath ++ decimalString(nonce)`, with the materialised
body bytes appended to the hashed message exactly when the method is POST
or PUT.  `hm` is the HMAC-SHA512 primitive, `now` the whole-seconds
timestamp taken once during the call, `mb` the materialised body. -/
theorem c1_signature_field (hm : List Nat → List Nat → List Nat) (c : Client)
    (method urlPath : String) (query : Headers) (body : BodyArg) (headers : Headers)
    (now : Int) (mb : Option (List Nat)) (req : Request)
    (hmb : materializeBody method body = .ok mb)
    (hreq : buildSignedRequest hm c method urlPath query body headers now = .ok req) :
    hget req.headers "Authorization" =
      "APIKey=" ++ c.apiKey ++ ", Signature=" ++
        hexLower (hm (utf8Bytes c.apiSecret)
          (utf8Bytes (method ++ urlPath ++ toString now) ++
            (if method = "POST" ∨ method = "PUT" then mb.getD [] else []))) ++
      ", Nonce=" ++ toString now := by
  rw [buildSignedRequest_ok hm c method urlPath query body headers now mb hmb] at hreq
  injection hreq with h
  subst h
  dsimp only
  rw [hget_signedHeaders_auth]
  rfl

/-- Closed witness for `c1_signature_field`: a concrete POST with raw body
bytes `[65, 66]`. -/
theorem c1_signature_field_witness :
    hget wreqPost.headers "Authorization" =
      "APIKey=" ++ wClient.apiKey ++ ", Signature=" ++
        hexLower (wHm (utf8Bytes wClient.apiSecret)
          (utf8Bytes ("POST" ++ "/t" ++ toString (7 : Int)) ++
            (if ("POST" : String) = "POST" ∨ ("POST" : String) = "PUT"
              then (some [65, 66]).getD [] else []))) ++
      ", Nonce=" ++ toString (7 : Int) :=
  c1_signature_field wHm wClient "POST" "/t" [] (.raw [65, 66]) [] 7 (some [65, 66])
    wreqPost rfl rfl

/-- C2: the Authorization header value is exactly
`APIKey=<key>, Signature=<lowercase hex sig>, Nonce=<decimal timestamp>`,
comma-space separated, in this field order, and the very `now` that
appears in the `Nonce` field is the one embedded in the signed message
(the timestamp is a single parameter because `time.Now().Unix()` is
called exactly once, at line 180). -/
theorem c2_authorization_header (hm : List Nat → List Nat → List Nat) (c : Client)
    (method urlPath : String) (query : Headers) (body : BodyArg) (headers : Headers)
    (now : Int) (mb : Option (List Nat)) (req : Request)
    (hmb : materializeBody method body = .ok mb)
    (hreq : buildSignedRequest hm c method urlPath query body headers now = .ok req) :
    hget req.headers "Authorization" =
      "APIKey=" ++ c.apiKey ++ ", Signature=" ++
        hexLower (hm (utf8Bytes c.apiSecret) (hmacInput method urlPath now (mb.getD []))) ++
      ", Nonce=" ++ toString now ∧
    hmacInput method urlPath now (mb.getD []) =
      utf8Bytes (method ++ urlPath ++ toString now) ++
        (if method = "POST" ∨ method = "PUT" then mb.getD [] else []) := by
  refine ⟨?_, rfl⟩
  rw [buildSignedRequest_ok hm c method urlPath query body headers now mb hmb] at hreq
  injection hreq with h
  subst h
  dsimp only
  rw [hget_signedHeaders_auth]
  rfl

/-- Closed witness for `c2_authorization_header`: a concrete DELETE. -/
theorem c2_authorization_header_witness :
    hget wreqDelete.headers "Authorization" =
      "APIKey=" ++ wClient.apiKey ++ ", Signature=" ++
        hexLower (wHm (utf8Bytes wClient.apiSecret)
          (hmacInput "DELETE" "/t" 9 ((none : Option (List Nat)).getD []))) ++
      ", Nonce=" ++ toString (9 : Int) ∧
    hmacInput "DELETE" "/t" 9 ((none : Option (List Nat)).getD []) =
      utf8Bytes ("DELETE" ++ "/t" ++ toString (9 : Int)) ++
        (if ("DELETE" : String) = "POST" ∨ ("DELETE" : String) = "PUT"
          then (none : Option (List Nat)).getD [] else []) :=
  c2_authorization_header wHm wClient "DELETE" "/t" [] .absent [] 9 none wreqDelete rfl rfl

/-- C3: for POST/PUT, whatever form the body argument takes, the
materialised byte sequence `bb` is simultaneously the transmitted request
body and the byte sequence covered by the signature (lines 171-177
materialise once; line 212 hashes `bodyBytes`; line 182/176 transmits the
same bytes). -/
theorem c3_signed_body_is_transmitted_body (hm : List Nat → List Nat → List Nat)
    (c : Client) (method urlPath : String) (query : Headers) (body : BodyArg)
    (headers : Headers) (now : Int) (bb : List Nat) (req : Request)
    (hpp : method = "POST" ∨ method = "PUT")
    (hmb : materializeBody method body = .ok (some bb))
    (hreq : buildSignedRequest hm c method urlPath query body headers now = .ok req) :
    req.body = some bb ∧
    hget req.headers "Authorization" =
      "APIKey=" ++ c.apiKey ++ ", Signature=" ++
        hexLower (hm (utf8Bytes c.apiSecret)
          (utf8Bytes (method ++ urlPath ++ toString now) ++ bb)) ++
      ", Nonce=" ++ toString now := by
  rw [buildSignedRequest_ok hm c method urlPath query body headers now (some bb) hmb] at hreq
  injection hreq with h
  subst h
  refine ⟨rfl, ?_⟩
  dsimp only
  rw [hget_signedHeaders_auth]
  unfold authValue hmacInput
  rw [if_pos hpp]
  rfl

/-- Closed witness for `c3_signed_body_is_transmitted_body`: the concrete
POST with raw body `[65, 66]`. -/
theorem c3_signed_body_is_transmitted_body_witness :
    wreqPost.body = some [65, 66] ∧
    hget wreqPost.headers "Authorization" =
      "APIKey=" ++ wClient.apiKey ++ ", Signature=" ++
        hexLower (wHm (utf8Bytes wClient.apiSecret)
          (utf8Bytes ("POST" ++ "/t" ++ toString (7 : Int)) ++ [65, 66])) ++
      ", Nonce=" ++ toString (7 : Int) :=
  c3_signed_body_is_transmitted_body wHm wClient "POST" "/t" [] (.raw [65, 66]) [] 7
    [65, 66] wreqPost (Or.inl rfl) rfl rfl

/-- C6: for GET/DELETE, no body bytes enter the signed message and no
request body is transmitted, whatever the caller passed as `body`; the
signature covers only method, path and nonce. -/
theorem c6_get_delete_no_body (hm : List Nat → List Nat → List Nat) (c : Client)
    (method urlPath : String) (query : Headers) (body : BodyArg) (headers : Headers)
    (now : Int) (req : Request)
    (hgd : method = "GET" ∨ method = "DELETE")
    (hreq : buildSignedRequest hm c method urlPath query body headers now = .ok req) :
    req.body = none ∧
    hget req.headers "Authorization" =
      "APIKey=" ++ c.apiKey ++ ", Signature=" ++
        hexLower (hm (utf8Bytes c.apiSecret) (utf8Bytes (method ++ urlPath ++ toString now))) ++
      ", Nonce=" ++ toString now := by
  have hnp : ¬(method = "POST" ∨ method = "PUT") := by
    rcases hgd with h | h <;> subst h <;> decide
  have hmb : materializeBody method body = .ok none := by
    unfold materializeBody
    rw [if_neg hnp]
  rw [buildSignedRequest_ok hm c method urlPath query body headers now none hmb] at hreq
  injection hreq with h
  subst h
  refine ⟨rfl, ?_⟩
  dsimp only
  rw [hget_signedHeaders_auth]
  unfold authValue hmacInput
  rw [if_neg hnp, List.append_nil]

/-- Closed witness for `c6_get_delete_no_body`: a concrete GET carrying a
raw body argument that must be discarded. -/
theorem c6_get_delete_no_body_witness :
    wreqGet.body = none ∧
    hget wreqGet.headers "Authorization" =
      "APIKey=" ++ wClient.apiKey ++ ", Signature=" ++
        hexLower (wHm (utf8Bytes wClient.apiSecret)
          (utf8Bytes ("GET" ++ "/t" ++ toString (7 : Int)))) ++
      ", Nonce=" ++ toString (7 : Int) :=
  c6_get_delete_no_body wHm wClient "GET" "/t" [] (.raw [65, 66]) [] 7 wreqGet
    (Or.inl rfl) rfl

/-- C7: a POST/PUT with an absent (`nil`) body materialises exactly the
two-byte literal `[123, 125]` (the bytes of an empty JSON object), which
is both transmitted as the request body and covered by the signature. -/
theorem c7_absent_body_empty_object (hm : List Nat → List Nat → List Nat) (c : Client)
    (method urlPath : String) (query : Headers) (headers : Headers) (now : Int)
    (req : Request)
    (hpp : method = "POST" ∨ method = "PUT")
    (hreq : buildSignedRequest hm c method urlPath query .absent headers now = .ok req) :
    req.body = some jsonEmptyObject ∧ jsonEmptyObject = [123, 125] ∧
    hget req.headers "Authorization" =
      "APIKey=" ++ c.apiKey ++ ", Signature=" ++
        hexLower (hm (utf8Bytes c.apiSecret)
          (utf8Bytes (method ++ urlPath ++ toString now) ++ jsonEmptyObject)) ++
      ", Nonce=" ++ toString now := by
  have hmb : materializeBody method .absent = .ok (some jsonEmptyObject) := by
    unfold materializeBody
    rw [if_pos hpp]
  rw [buildSignedRequest_ok hm c method urlPath query .absent headers now
    (some jsonEmptyObject) hmb] at hreq
  injection hreq with h
  subst h
  refine ⟨rfl, rfl, ?_⟩
  dsimp only
  rw [hget_signedHeaders_auth]
  unfold authValue hmacInput
  rw [if_pos hpp]
  rfl

/-- Closed witness for `c7_absent_body_empty_object`: a concrete PUT with
absent body. -/
theorem c7_absent_body_empty_object_witness :
    wreqPutAbsent.body = some jsonEmptyObject ∧ jsonEmptyObject = [123, 125] ∧
    hget wreqPutAbsent.headers "Authorization" =
      "APIKey=" ++ wClient.apiKey ++ ", Signature=" ++
        hexLower (wHm (utf8Bytes wClient.apiSecret)
          (utf8Bytes ("PUT" ++ "/t" ++ toString (7 : Int)) ++ jsonEmptyObject)) ++
      ", Nonce=" ++ toString (7 : Int) :=
  c7_absent_body_empty_object wHm wClient "PUT" "/t" [] [] 7 wreqPutAbsent
    (Or.inr rfl) rfl

/-- C8 counterexample: an `Error` whose envelope carries the message
`"boom"` but whose status code is `0` renders `"unknown error (0)"`, not
`"boom (0)"` — the claim's case split on message presence alone is wrong,
because the method also requires `StatusCode > 0`. -/
theorem c8_counterexample :
    Error.Error { response := { errorCode := 1, errorMessage := "boom", success := false },
                  statusCode := 0 } = "unknown error (0)" ∧
    ("unknown error (0)" : String) ≠ "boom" ++ " (" ++ toString (0 : Nat) ++ ")" := by
  constructor
  · rfl
  · decide

/-- C8 (amended): the rendered message is `<errorMessage> (<statusCode>)`
when a message is present AND the status code is positive, and
`unknown error (<statusCode>)` otherwise. -/
theorem c8_error_render (e : Error) :
    (e.response.errorMessage ≠ "" ∧ 0 < e.statusCode →
      Error.Error e = e.response.errorMessage ++ " (" ++ toString e.statusCode ++ ")") ∧
    (¬(e.response.errorMessage ≠ "" ∧ 0 < e.statusCode) →
      Error.Error e = "unknown error (" ++ toString e.statusCode ++ ")") := by
  constructor <;> intro h <;> simp [Error.Error, h]

/-- Closed witness for `c8_error_render`: the spec's own end-to-end
example, a 404 with message `"not found"`. -/
theorem c8_error_render_witness :
    Error.Error { response := { errorCode := 404, errorMessage := "not found", success := false },
                  statusCode := 404 } = "not found (404)" :=
  (c8_error_render
    { response := { errorCode := 404, errorMessage := "not found", success := false },
      statusCode := 404 }).1 (by decide)

/-- The result of `doRequest` for a completed exchange is exactly the
classification of the response. -/
theorem doRequest_result_classify (hm : List Nat → List Nat → List Nat)
    (unmarshal : List Nat → Except String ErrorResponse)
    (dumpReq : Request → Except String (List Nat))
    (dumpResp : HttpResponse → Except String (List Nat))
    (send : Request → Except String HttpResponse)
    (c : Client) (method urlPath : String) (query : Headers) (body : BodyArg)
    (headers : Headers) (now : Int) (req : Request) (resp : HttpResponse)
    (respBody : List Nat) (dr ds : List Nat)
    (hreq : buildSignedRequest hm c method urlPath query body headers now = .ok req)
    (hsend : send req = .ok resp)
    (hread : resp.body = .ok respBody)
    (hdr : c.debug = true → dumpReq req = .ok dr)
    (hds : c.debug = true → dumpResp resp = .ok ds) :
    (doRequest hm unmarshal dumpReq dumpResp send c method urlPath query body headers now).1
      = classifyResponse unmarshal respBody resp := by
  unfold doRequest
  rw [hreq]
  unfold performRequest
  cases hdbg : c.debug with
  | false =>
    simp only [hdbg, Bool.false_eq_true, if_false, hsend, hread]
  | true =>
    simp only [hdbg, if_true, hdr hdbg, hsend, hds hdbg, hread]

/-- C5: for a completed exchange, a status below 400 yields an
`APIResponse` with the raw body bytes, status line, status code and
headers; a status of 400 or more parses the body as the error envelope
and returns the typed `Error` on parse success, while on parse failure
the (wrapped) JSON parse error itself is surfaced. -/
theorem c5_classification (hm : List Nat → List Nat → List Nat)
    (unmarshal : List Nat → Except String ErrorResponse)
    (dumpReq : Request → Except String (List Nat))
    (dumpResp : HttpResponse → Except String (List Nat))
    (send : Request → Except String HttpResponse)
    (c : Client) (method urlPath : String) (query : Headers) (body : BodyArg)
    (headers : Headers) (now : Int) (req : Request) (resp : HttpResponse)
    (respBody : List Nat) (dr ds : List Nat)
    (hreq : buildSignedRequest hm c method urlPath query body headers now = .ok req)
    (hsend : send req = .ok resp)
    (hread : resp.body = .ok respBody)
    (hdr : c.debug = true → dumpReq req = .ok dr)
    (hds : c.debug = true → dumpResp resp = .ok ds) :
    (resp.statusCode < 400 →
      (doRequest hm unmarshal dumpReq dumpResp send c method urlPath query body
        headers now).1 =
        .ok { body := respBody, status := resp.status, statusCode := resp.statusCode,
              headers := resp.headers }) ∧
    (∀ r, 400 ≤ resp.statusCode → unmarshal respBody = .ok r →
      (doRequest hm unmarshal dumpReq dumpResp send c method urlPath query body
        headers now).1 =
        .error (.api { response := r, statusCode := resp.statusCode })) ∧
    (∀ e, 400 ≤ resp.statusCode → unmarshal respBody = .error e →
      (doRequest hm unmarshal dumpReq dumpResp send c method urlPath query body
        headers now).1 =
        .error (.unmarshalResponse ("failed to unmarshal response body: " ++ e))) := by
  have hres := doRequest_result_classify hm unmarshal dumpReq dumpResp send c method
    urlPath query body headers now req resp respBody dr ds hreq hsend hread hdr hds
  rw [hres]
  refine ⟨?_, ?_, ?_⟩
  · intro hlt
    unfold classifyResponse
    rw [if_neg (by omega)]
  · intro r hge hu
    unfold classifyResponse
    rw [if_pos hge, hu]
  · intro e hge hu
    unfold classifyResponse
    rw [if_pos hge, hu]

/-- Closed witness for `c5_classification`: a concrete 404 whose body
decodes to the fixed error envelope, and a concrete 200 carrying raw body
bytes. -/
theorem c5_classification_witness :
    (doRequest wHm wUnmarshal wDumpReq wDumpResp (wSend 404 [1, 2]) wClient "GET" "/e"
      [] .absent [] 3).1 =
      .error (.api { response := { errorCode := 404, errorMessage := "not found", success := false }, statusCode := 404 }) ∧
    (doRequest wHm wUnmarshal wDumpReq wDumpResp (wSend 200 [7]) wClient "GET" "/e"
      [] .absent [] 3).1 =
      .ok { body := [7], status := toString (200 : Nat), statusCode := 200, headers := [] } := by
  constructor
  · exact (c5_classification wHm wUnmarshal wDumpReq wDumpResp (wSend 404 [1, 2]) wClient
      "GET" "/e" [] .absent [] 3
      (okOrD (buildSignedRequest wHm wClient "GET" "/e" [] .absent [] 3))
      { statusCode := 404, status := toString (404 : Nat), headers := [], body := .ok [1, 2] }
      [1, 2] [] []
      rfl rfl rfl (fun h => absurd h (by decide)) (fun h => absurd h (by decide))).2.1
      { errorCode := 404, errorMessage := "not found", success := false }
      (by decide) rfl
  · exact (c5_classification wHm wUnmarshal wDumpReq wDumpResp (wSend 200 [7]) wClient
      "GET" "/e" [] .absent [] 3
      (okOrD (buildSignedRequest wHm wClient "GET" "/e" [] .absent [] 3))
      { statusCode := 200, status := toString (200 : Nat), headers := [], body := .ok [7] }
      [7] [] []
      rfl rfl rfl (fun h => absurd h (by decide)) (fun h => absurd h (by decide))).1
      (by decide)

/-- C4 counterexample: with debug enabled and a 200 response whose body
happens to contain the API key literal, the second emitted log entry (the
response dump taken with `httputil.DumpResponse(resp, true)`) is the API
key literal itself — the code at lines 245-251 logs the response dump
without any redaction pass, so debug output can contain the secret
literals, refuting the claim that redaction is applied to both dumps. -/
theorem c4_counterexample :
    ((doRequest wHm wUnmarshal wDumpReq wDumpResp cexSendEcho wClientDebug "GET" "/g"
      [] .absent [] 3).2).getD 1 [] = utf8Bytes wClientDebug.apiKey ∧
    wClientDebug.apiKey ≠ "" := by
  refine ⟨?_, by decide⟩
  rfl

/-- C4 (amended): with debug enabled, the request dump is emitted with
every occurrence of the non-empty API key and then of the non-empty API
secret replaced by the redaction marker, while the response dump is
emitted verbatim, without redaction. -/
theorem c4_redaction_request_dump_only (hm : List Nat → List Nat → List Nat)
    (unmarshal : List Nat → Except String ErrorResponse)
    (dumpReq : Request → Except String (List Nat))
    (dumpResp : HttpResponse → Except String (List Nat))
    (send : Request → Except String HttpResponse)
    (c : Client) (method urlPath : String) (query : Headers) (body : BodyArg)
    (headers : Headers) (now : Int) (req : Request) (resp : HttpResponse)
    (dr ds : List Nat)
    (hreq : buildSignedRequest hm c method urlPath query body headers now = .ok req)
    (hdbg : c.debug = true)
    (hdr : dumpReq req = .ok dr)
    (hsend : send req = .ok resp)
    (hds : dumpResp resp = .ok ds) :
    (doRequest hm unmarshal dumpReq dumpResp send c method urlPath query body
      headers now).2 = [redactSensitive c.apiKey c.apiSecret dr, ds] := by
  unfold doRequest
  rw [hreq]
  unfold performRequest
  simp only [hdbg, if_true, hdr, hsend, hds]
  cases hb : resp.body <;> simp only [hb] <;> rfl

/-- Closed witness for `c4_redaction_request_dump_only`: the concrete
debug run behind the counterexample, showing the redacted request dump
next to the verbatim response dump. -/
theorem c4_redaction_request_dump_only_witness :
    (doRequest wHm wUnmarshal wDumpReq wDumpResp cexSendEcho wClientDebug "GET" "/g"
      [] .absent [] 3).2
      = [redactSensitive wClientDebug.apiKey wClientDebug.apiSecret (utf8Bytes "GET"),
         utf8Bytes "key1"] :=
  c4_redaction_request_dump_only wHm wUnmarshal wDumpReq wDumpResp cexSendEcho
    wClientDebug "GET" "/g" [] .absent [] 3 wreqDebug
    { statusCode := 200, status := "200 OK", headers := [], body := .ok (utf8Bytes "key1") }
    (utf8Bytes "GET") (utf8Bytes "key1") rfl rfl rfl rfl rfl

/-- C9 counterexample: the caller supplies a `User-Agent` header and the
client has a configured user-agent; lines 217-219 set the configured
value unconditionally, so the already-present caller value is replaced —
refuting the claim's "it is set unless a User-Agent header is already
present". -/
theorem c9_counterexample :
    hget wCallHeaders "User-Agent" = "CallerUA" ∧
    wClient.userAgent = "zerogate-go" ∧
    hget wreqHdrs.headers "User-Agent" = "zerogate-go" ∧
    ("CallerUA" : String) ≠ "zerogate-go" := by
  refine ⟨rfl, rfl, ?_, by decide⟩
  rfl

/-- C9 (amended): the effective headers are the client defaults overlaid
by the call-supplied headers with the call-supplied entry winning on key
collision (for keys other than the three the pipeline writes);
`Content-Type` is set to `application/json` exactly when no `Content-Type`
value is present after the merge; and a configured user-agent is set
unconditionally, replacing any `User-Agent` header already present. -/
theorem c9_header_merge (hm : List Nat → List Nat → List Nat) (c : Client)
    (method urlPath : String) (query : Headers) (body : BodyArg) (headers : Headers)
    (now : Int) (mb : Option (List Nat)) (req : Request)
    (hmb : materializeBody method body = .ok mb)
    (hreq : buildSignedRequest hm c method urlPath query body headers now = .ok req)
    (hndc : KeysNodup c.headers) (hndh : KeysNodup headers) :
    (∀ k, k ≠ "Authorization" → k ≠ "User-Agent" → k ≠ "Content-Type" →
      hlookup req.headers k =
        match hlookup headers k with
        | some vs => some vs
        | none => hlookup c.headers k) ∧
    (hget (mergeHeaders c.headers headers) "Content-Type" = "" →
      hget req.headers "Content-Type" = "application/json") ∧
    (hget (mergeHeaders c.headers headers) "Content-Type" ≠ "" →
      hlookup req.headers "Content-Type" =
        hlookup (mergeHeaders c.headers headers) "Content-Type") ∧
    (c.userAgent ≠ "" → hget req.headers "User-Agent" = c.userAgent) ∧
    (c.userAgent = "" →
      hlookup req.headers "User-Agent" =
        hlookup (mergeHeaders c.headers headers) "User-Agent") := by
  rw [buildSignedRequest_ok hm c method urlPath query body headers now mb hmb] at hreq
  injection hreq with h
  subst h
  dsimp only
  refine ⟨?_, ?_, ?_, ?_, ?_⟩
  · intro k hka hku hkc
    rw [hlookup_signedHeaders_other hm c method urlPath headers now mb k hka hku hkc,
      hlookup_mergeHeaders c.headers headers hndc hndh k]
  · intro h
    exact hget_signedHeaders_ct_absent hm c method urlPath headers now mb h
  · intro h
    exact hlookup_signedHeaders_ct_present hm c method urlPath headers now mb h
  · intro h
    exact hget_signedHeaders_ua hm c method urlPath headers now mb h
  · intro h
    exact hlookup_signedHeaders_ua_not_configured hm c method urlPath headers now mb h

/-- Closed witness for `c9_header_merge`: the configured user-agent
replaces the caller's, the caller's `Content-Type` survives, and an
untouched default header flows through the merge. -/
theorem c9_header_merge_witness :
    hget wreqHdrs.headers "User-Agent" = wClient.userAgent ∧
    hlookup wreqHdrs.headers "X-Def" = some ["d"] := by
  constructor
  · exact (c9_header_merge wHm wClient "GET" "/h" [] .absent wCallHeaders 3 none wreqHdrs
      rfl rfl (by unfold KeysNodup; decide) (by unfold KeysNodup; decide)).2.2.2.1 (by decide)
  · have h := (c9_header_merge wHm wClient "GET" "/h" [] .absent wCallHeaders 3 none wreqHdrs
      rfl rfl (by unfold KeysNodup; decide) (by unfold KeysNodup; decide)).1 "X-Def"
      (by decide) (by decide) (by decide)
    rw [h]
    rfl

/-! List and heap lemmas for the frame claim. -/

theorem getD_append_lt {α : Type} : ∀ (l : List α) (x : α) (i : Nat) (d : α),
    i < l.length → (l ++ [x]).getD i d = l.getD i d
  | [], _, i, _, h => absurd h (Nat.not_lt_zero i)
  | _ :: _, _, 0, _, _ => rfl
  | _ :: t, x, i + 1, d, h => getD_append_lt t x i d (Nat.lt_of_succ_lt_succ h)

theorem getD_set_ne {α : Type} : ∀ (l : List α) (j : Nat) (x : α) (i : Nat) (d : α),
    i ≠ j → (l.set j x).getD i d = l.getD i d
  | [], _, _, _, _, _ => rfl
  | _ :: _, 0, _, 0, _, h => absurd rfl h
  | _ :: _, 0, _, _ + 1, _, _ => rfl
  | _ :: _, _ + 1, _, 0, _, _ => rfl
  | _ :: t, j + 1, x, i + 1, d, h => getD_set_ne t j x i d (fun he => h (by rw [he]))

theorem readHdr_writeHdr_ne (H : Heap) (loc : Nat) (h : Headers) (l : Nat)
    (hne : l ≠ loc) : readHdr (writeHdr H loc h) l = readHdr H l :=
  getD_set_ne H.hdrs loc h l _ hne

theorem readHdr_copyLoop_ne : ∀ (src : Headers) (H : Heap) (loc l : Nat), l ≠ loc →
    readHdr (copyLoop H loc src) l = readHdr H l
  | [], _, _, _, _ => rfl
  | p :: t, H, loc, l, hne => by
    rw [show copyLoop H loc (p :: t)
        = copyLoop (writeHdr H loc (hsetEntry (readHdr H loc) p.1 p.2)) loc t from rfl,
      readHdr_copyLoop_ne t _ loc l hne, readHdr_writeHdr_ne H loc _ l hne]

theorem readHdr_setHdrAt_ne (H : Heap) (loc : Nat) (k v : String) (l : Nat)
    (hne : l ≠ loc) : readHdr (setHdrAt H loc k v) l = readHdr H l :=
  readHdr_writeHdr_ne H loc _ l hne

theorem clis_copyLoop : ∀ (src : Headers) (H : Heap) (loc : Nat),
    (copyLoop H loc src).clis = H.clis
  | [], _, _ => rfl
  | p :: t, H, loc => by
    rw [show copyLoop H loc (p :: t)
        = copyLoop (writeHdr H loc (hsetEntry (readHdr H loc) p.1 p.2)) loc t from rfl,
      clis_copyLoop t _ loc]
    rfl

theorem hdrsLength_copyLoop : ∀ (src : Headers) (H : Heap) (loc : Nat),
    (copyLoop H loc src).hdrs.length = H.hdrs.length
  | [], _, _ => rfl
  | p :: t, H, loc => by
    rw [show copyLoop H loc (p :: t)
        = copyLoop (writeHdr H loc (hsetEntry (readHdr H loc) p.1 p.2)) loc t from rfl,
      hdrsLength_copyLoop t _ loc]
    simp [writeHdr]

theorem readHdr_grow (H : Heap) (h : Headers) (l : Nat) (hl : l < H.hdrs.length) :
    readHdr { H with hdrs := H.hdrs ++ [h] } l = readHdr H l :=
  getD_append_lt H.hdrs h l _ hl

theorem readCli_congr (H H2 : Heap) (hc : H2.clis = H.clis) (l : Nat) :
    readCli H2 l = readCli H l := by
  unfold readCli
  rw [hc]

theorem buildHeadersHeap_clis (H : Heap) (a b : Headers) (k s ua : String) (now : Int) :
    (buildHeadersHeap H a b k s ua now).1.clis = H.clis := by
  simp only [buildHeadersHeap, allocHdr]
  split_ifs <;> simp [setHdrAt, writeHdr, clis_copyLoop]

theorem buildHeadersHeap_hdrs_length (H : Heap) (a b : Headers) (k s ua : String)
    (now : Int) :
    (buildHeadersHeap H a b k s ua now).1.hdrs.length = H.hdrs.length + 1 := by
  simp only [buildHeadersHeap, allocHdr]
  split_ifs <;> simp [setHdrAt, writeHdr, hdrsLength_copyLoop]

theorem heapExtends_buildHeadersHeap (H : Heap) (a b : Headers) (k s ua : String)
    (now : Int) : HeapExtends H (buildHeadersHeap H a b k s ua now).1 := by
  refine ⟨?_, ?_, ?_, ?_⟩
  · rw [buildHeadersHeap_hdrs_length]
    exact Nat.le_succ _
  · rw [buildHeadersHeap_clis]
  · intro l hl
    have hne : l ≠ H.hdrs.length := Nat.ne_of_lt hl
    simp only [buildHeadersHeap, allocHdr]
    split_ifs <;>
      simp only [readHdr_setHdrAt_ne _ _ _ _ _ hne, readHdr_copyLoop_ne _ _ _ _ hne] <;>
      exact readHdr_grow H _ l hl
  · intro l hl
    exact readCli_congr H _ (buildHeadersHeap_clis H a b k s ua now) l

theorem heapExtends_allocCli (H : Heap) (v : HttpClientVal) :
    HeapExtends H (allocCli H v).1 := by
  refine ⟨le_refl _, ?_, fun l hl => rfl, fun l hl => getD_append_lt H.clis v l _ hl⟩
  simp [allocCli]

theorem heapExtends_refl (H : Heap) : HeapExtends H H :=
  ⟨le_refl _, le_refl _, fun _ _ => rfl, fun _ _ => rfl⟩

theorem heapExtends_trans (H1 H2 H3 : Heap) (a : HeapExtends H1 H2)
    (b : HeapExtends H2 H3) : HeapExtends H1 H3 := by
  obtain ⟨a1, a2, a3, a4⟩ := a
  obtain ⟨b1, b2, b3, b4⟩ := b
  refine ⟨le_trans a1 b1, le_trans a2 b2, ?_, ?_⟩
  · intro l hl
    rw [b3 l (lt_of_lt_of_le hl a1), a3 l hl]
  · intro l hl
    rw [b4 l (lt_of_lt_of_le hl a2), a4 l hl]

theorem finishRequestHeap_spec (unm : List Nat → Except String ErrorResponse)
    (dresp : HttpResponse → Except String (List Nat))
    (send : Request → Except String HttpResponse)
    (H : Heap) (co : ClientObj) (req : Request) (dbg : Bool) :
    (finishRequestHeap unm dresp send H co req dbg).2.1 = co ∧
    (finishRequestHeap unm dresp send H co req dbg).1
      = (allocCli H (readCli H co.httpClientLoc)).1 := by
  unfold finishRequestHeap getClient
  dsimp only
  cases send req with
  | error e => exact ⟨rfl, rfl⟩
  | ok resp =>
    dsimp only
    split_ifs
    · cases dresp resp with
      | error e => exact ⟨rfl, rfl⟩
      | ok d =>
        cases resp.body with
        | error e => exact ⟨rfl, rfl⟩
        | ok rb => exact ⟨rfl, rfl⟩
    · cases resp.body with
      | error e => exact ⟨rfl, rfl⟩
      | ok rb => exact ⟨rfl, rfl⟩

/-- C10: a call leaves the `*Client` record and every pre-existing heap
object unchanged — the configuration fields come back identical, the
default header map (and any other existing header map) still holds the
same entries, and the configured `http.Client` record is untouched: the
header merge and the Authorization/Content-Type/User-Agent writes all go
to the freshly allocated per-request map, and `getClient` only allocates
a copy. -/
theorem c10_client_state_frame (hm : List Nat → List Nat → List Nat)
    (unm : List Nat → Except String ErrorResponse)
    (dreq : Request → Except String (List Nat))
    (dresp : HttpResponse → Except String (List Nat))
    (send : Request → Except String HttpResponse)
    (H : Heap) (co : ClientObj) (method urlPath : String) (query : Headers)
    (body : BodyArg) (callHeaders : Headers) (now : Int) :
    (doRequestHeap hm unm dreq dresp send H co method urlPath query body callHeaders
      now).2.1 = co ∧
    HeapExtends H (doRequestHeap hm unm dreq dresp send H co method urlPath query body
      callHeaders now).1 := by
  unfold doRequestHeap
  dsimp only
  cases hmb : materializeBody method body with
  | error e => exact ⟨rfl, heapExtends_refl H⟩
  | ok mb =>
    dsimp only
    constructor
    · split_ifs
      · split
        · rfl
        · exact (finishRequestHeap_spec _ _ _ _ _ _ _).1
      · exact (finishRequestHeap_spec _ _ _ _ _ _ _).1
    · split_ifs
      · split
        · exact heapExtends_buildHeadersHeap H _ _ _ _ _ _
        · rw [(finishRequestHeap_spec _ _ _ _ _ _ _).2]
          exact heapExtends_trans _ _ _ (heapExtends_buildHeadersHeap H _ _ _ _ _ _)
            (heapExtends_allocCli _ _)
      · rw [(finishRequestHeap_spec _ _ _ _ _ _ _).2]
        exact heapExtends_trans _ _ _ (heapExtends_buildHeadersHeap H _ _ _ _ _ _)
          (heapExtends_allocCli _ _)

/-- Closed witness for `c10_client_state_frame`: a concrete run over a
one-object heap leaves the default header map, the `http.Client` record
and the `*Client` fields untouched. -/
theorem c10_client_state_frame_witness :
    (doRequestHeap wHm wUnmarshal wDumpReq wDumpResp (wSend 200 [7]) wHeap wClientObj
      "GET" "/t" [] .absent [] 3).2.1 = wClientObj ∧
    readHdr (doRequestHeap wHm wUnmarshal wDumpReq wDumpResp (wSend 200 [7]) wHeap
      wClientObj "GET" "/t" [] .absent [] 3).1 0 = readHdr wHeap 0 ∧
    readCli (doRequestHeap wHm wUnmarshal wDumpReq wDumpResp (wSend 200 [7]) wHeap
      wClientObj "GET" "/t" [] .absent [] 3).1 0 = readCli wHeap 0 := by
  have h := c10_client_state_frame wHm wUnmarshal wDumpReq wDumpResp (wSend 200 [7])
    wHeap wClientObj "GET" "/t" [] .absent [] 3
  exact ⟨h.1, h.2.2.2.1 0 (by decide), h.2.2.2.2 0 (by decide)⟩

end Zerogate
